import Mathlib

/-!
Verification of the constant-product liquidity pool engine of this
repository and of the frontend swap / wallet glue.

The pool contract itself (LiquidtyPool) is not present in the repository
snapshot; only its Foundry test suite (src/contracts/test/Counter.t.sol)
and the frontend callers are.  The definitions in namespace LiquidtyPool
are therefore modelled from the specification (spec.md, sections 3, 4
and 7), with the test suite fixing the concrete constants: a 0.3 percent
fee (997 over 1000), a minimum liquidity lock of 1000 shares credited to
the zero address, and uint112 reserves.  The frontend definitions in
namespace Frontend are translated from src/Frontend/src/App.tsx and
src/Frontend/src/contractService.ts.

All quantities are modelled as unbounded naturals with explicit bound
checks against 2 ^ 112 - 1, matching the checked-arithmetic behaviour of
the source.  A failed operation returns an error and no successor state,
which models the transactional all-or-nothing semantics of section 7.
-/

namespace LiquidtyPool

/-- Holder addresses of the share ledger; the fixed sink account of the
first-deposit lock is address 0 (address(0) in the test suite). -/
abbrev Addr := Nat

/-- Error taxonomy of the pool engine (spec section 7). -/
inductive PoolError where
  | InsufficientInputAmount
  | InsufficientLiquidity
  | InsufficientOutputAmount
  | InsufficientLiquidityMinted
  | InsufficientLiquidityBurned
  | ReserveOverflow
  | InvariantViolation
  deriving DecidableEq, Repr

/-- Modelled from the spec: the fixed maximum reserve magnitude,
2 ^ 112 - 1 (uint112 in the test suite). -/
def MAX_RESERVE : Nat := 2 ^ 112 - 1

/-- Modelled from the spec: the minimum liquidity lock of 1000 shares. -/
def MINIMUM_LIQUIDITY : Nat := 1000

/-- The fixed sink account receiving the first-deposit lock. -/
def SINK : Addr := 0

/-- Modelled from the spec: pool state (spec section 3).  The share
ledger is a total map from holder addresses to balances. -/
structure Pool where
  reserveA : Nat
  reserveB : Nat
  totalShares : Nat
  balances : Addr → Nat

/-- Credit amt shares to holder who in the share ledger. -/
def credit (bal : Addr → Nat) (who : Addr) (amt : Nat) : Addr → Nat :=
  fun a => if a = who then bal a + amt else bal a

/-- Debit amt shares from holder who in the share ledger.  The
subtraction is exact whenever amt does not exceed the balance, which is
the documented input precondition of burn. -/
def debit (bal : Addr → Nat) (who : Addr) (amt : Nat) : Addr → Nat :=
  fun a => if a = who then bal a - amt else bal a

/-- The reserve of the asset being sold into the pool.  The token pair
is encoded by a boolean: true means the input token is asset A. -/
def reserveIn (p : Pool) (tokenInIsA : Bool) : Nat :=
  if tokenInIsA then p.reserveA else p.reserveB

/-- The reserve of the asset being bought out of the pool. -/
def reserveOut (p : Pool) (tokenInIsA : Bool) : Nat :=
  if tokenInIsA then p.reserveB else p.reserveA

/-- Modelled from the spec: the fee-adjusted output formula of
SwapEngine.getAmountOut (spec 4.3), with the 0.3 percent fee constants
997 and 1000 of the reference tests. -/
def amountOutFormula (p : Pool) (amountIn : Nat) (tokenInIsA : Bool) : Nat :=
  reserveOut p tokenInIsA * (amountIn * 997) /
    (reserveIn p tokenInIsA * 1000 + amountIn * 997)

/-- Modelled from the spec: SwapEngine.getAmountOut (spec 4.3), a pure
quote with no mutation. -/
def getAmountOut (p : Pool) (amountIn : Nat) (tokenInIsA : Bool) :
    Except PoolError Nat :=
  if amountIn = 0 then .error .InsufficientInputAmount
  else if reserveIn p tokenInIsA = 0 ∨ reserveOut p tokenInIsA = 0 then
    .error .InsufficientLiquidity
  else .ok (amountOutFormula p amountIn tokenInIsA)

/-- The reserve update of a successful swap: the input reserve grows by
amountIn, the output reserve shrinks by the computed output. -/
def applySwap (p : Pool) (amountIn amountOut : Nat) (tokenInIsA : Bool) : Pool :=
  if tokenInIsA then
    { p with reserveA := p.reserveA + amountIn, reserveB := p.reserveB - amountOut }
  else
    { p with reserveA := p.reserveA - amountOut, reserveB := p.reserveB + amountIn }

/-- Modelled from the spec: SwapEngine.swap (spec 4.4).  Computes the
output via getAmountOut, applies the slippage guard, the reserve
overflow bound, updates reserves, and ends with the defense-in-depth
K recheck of spec 4.4 (shown redundant in swap_never_invariantViolation
below). -/
def swap (p : Pool) (amountIn : Nat) (tokenInIsA : Bool) (minAmountOut : Nat)
    (recipient : Addr) : Except PoolError (Pool × Nat) :=
  match getAmountOut p amountIn tokenInIsA with
  | .error e => .error e
  | .ok amountOut =>
    if amountOut < minAmountOut then .error .InsufficientOutputAmount
    else if MAX_RESERVE < reserveIn p tokenInIsA + amountIn then
      .error .ReserveOverflow
    else if (applySwap p amountIn amountOut tokenInIsA).reserveA *
        (applySwap p amountIn amountOut tokenInIsA).reserveB <
        p.reserveA * p.reserveB then
      .error .InvariantViolation
    else .ok (applySwap p amountIn amountOut tokenInIsA, amountOut)

/-- Modelled from the spec: the share issuance of LiquidityEngine.mint
(spec 4.1): geometric mean minus the lock on the first deposit,
proportional minimum afterwards.  In natural-number arithmetic the
truncated subtraction makes the first-deposit guard (sharesIssued
at most zero) coincide with the zero test used for both branches. -/
def mintSharesIssued (p : Pool) (amountA amountB : Nat) : Nat :=
  if p.totalShares = 0 then
    Nat.sqrt (amountA * amountB) - MINIMUM_LIQUIDITY
  else
    min (amountA * p.totalShares / p.reserveA)
      (amountB * p.totalShares / p.reserveB)

/-- Modelled from the spec: LiquidityEngine.mint (spec 4.1). -/
def mint (p : Pool) (amountA amountB : Nat) (recipient : Addr) :
    Except PoolError (Pool × Nat) :=
  if mintSharesIssued p amountA amountB = 0 then .error .InsufficientLiquidityMinted
  else if MAX_RESERVE < p.reserveA + amountA ∨ MAX_RESERVE < p.reserveB + amountB then
    .error .ReserveOverflow
  else if p.totalShares = 0 then
    .ok ({ reserveA := p.reserveA + amountA,
           reserveB := p.reserveB + amountB,
           totalShares := p.totalShares + MINIMUM_LIQUIDITY +
             mintSharesIssued p amountA amountB,
           balances := credit (credit p.balances SINK MINIMUM_LIQUIDITY)
             recipient (mintSharesIssued p amountA amountB) },
         mintSharesIssued p amountA amountB)
  else
    .ok ({ reserveA := p.reserveA + amountA,
           reserveB := p.reserveB + amountB,
           totalShares := p.totalShares + mintSharesIssued p amountA amountB,
           balances := credit p.balances recipient
             (mintSharesIssued p amountA amountB) },
         mintSharesIssued p amountA amountB)

/-- Modelled from the spec: LiquidityEngine.burn (spec 4.2).  The input
precondition that shares not exceed the balance of the caller is carried
as a hypothesis of the theorems below. -/
def burn (p : Pool) (caller : Addr) (shares : Nat) (recipient : Addr) :
    Except PoolError (Pool × Nat × Nat) :=
  if shares * p.reserveA / p.totalShares = 0 ∨
      shares * p.reserveB / p.totalShares = 0 then
    .error .InsufficientLiquidityBurned
  else
    .ok ({ reserveA := p.reserveA - shares * p.reserveA / p.totalShares,
           reserveB := p.reserveB - shares * p.reserveB / p.totalShares,
           totalShares := p.totalShares - shares,
           balances := debit p.balances caller shares },
         shares * p.reserveA / p.totalShares,
         shares * p.reserveB / p.totalShares)

/-- A concrete seeded pool at reserves (100, 100), used by witnesses. -/
def pool100 : Pool :=
  { reserveA := 100, reserveB := 100, totalShares := 100, balances := fun _ => 0 }

/-- The empty pool, used by witnesses. -/
def pool0 : Pool :=
  { reserveA := 0, reserveB := 0, totalShares := 0, balances := fun _ => 0 }

/-- A tiny pool at reserves (1, 1), on which the floored quote formula
plateaus; used by the counterexample to strict monotonicity. -/
def poolOneOne : Pool :=
  { reserveA := 1, reserveB := 1, totalShares := 1, balances := fun _ => 0 }

/-- The pool produced by depositing (10, 10) into the seeded (100, 100)
pool, used by witnesses. -/
def poolSub : Pool :=
  { reserveA := 110, reserveB := 110, totalShares := 110,
    balances := credit pool100.balances 1 10 }

end LiquidtyPool

namespace Frontend

/-- The model of ethers formatEther at 18 decimals: a wei quantity is
rendered as its whole units together with its 18-decimal fraction
(src/Frontend/src/contractService.ts renders every displayed amount
with formatEther). -/
def formatEther (wei : Nat) : Nat × Nat := (wei / 10 ^ 18, wei % 10 ^ 18)

/-- The model of ethers parseEther at 18 decimals applied to such a
rendered amount: units times 10 ^ 18 plus the fraction. -/
def parseEther (x : Nat × Nat) : Nat := x.1 * 10 ^ 18 + x.2

/-- ContractService.getAmountOut of contractService.ts: parse the typed
amount at 18 decimals, quote the pool, and render the result with
formatEther for display. -/
def ContractService.getAmountOut (p : LiquidtyPool.Pool) (amountIn : Nat × Nat)
    (tokenInIsBNB : Bool) : Except LiquidtyPool.PoolError (Nat × Nat) :=
  match LiquidtyPool.getAmountOut p (parseEther amountIn) tokenInIsBNB with
  | .error e => .error e
  | .ok amountOutWei => .ok (formatEther amountOutWei)

/-- ContractService.swap of contractService.ts: both the input amount and
the minimum output are parsed at 18 decimals and the pool swap is
executed for the connected user. -/
def ContractService.swap (p : LiquidtyPool.Pool) (amountIn : Nat × Nat)
    (tokenInIsBNB : Bool) (minAmountOut : Nat × Nat) (user : LiquidtyPool.Addr) :
    Except LiquidtyPool.PoolError (LiquidtyPool.Pool × Nat) :=
  LiquidtyPool.swap p (parseEther amountIn) tokenInIsBNB
    (parseEther minAmountOut) user

/-- calculatePrice of App.tsx in the pay-side flow: the typed pay amount
is quoted and the receive field (token2Amount) is set to the rendered
quote. -/
def calculatePrice (p : LiquidtyPool.Pool) (token1Amount : Nat × Nat)
    (token1IsBNB : Bool) : Except LiquidtyPool.PoolError (Nat × Nat) :=
  ContractService.getAmountOut p token1Amount token1IsBNB

/-- handleSwap of App.tsx: the swap is submitted with the displayed
receive amount (token2Amount) as minAmountOut.  The pool may have moved
between the quote and the execution, so the quote pool and the execution
pool are distinct parameters. -/
def handleSwap (pQuote pExec : LiquidtyPool.Pool) (token1Amount : Nat × Nat)
    (token1IsBNB : Bool) (user : LiquidtyPool.Addr) :
    Except LiquidtyPool.PoolError (LiquidtyPool.Pool × Nat) :=
  match calculatePrice pQuote token1Amount token1IsBNB with
  | .error e => .error e
  | .ok token2Amount =>
    ContractService.swap pExec token1Amount token1IsBNB token2Amount user

/-- The environment connectWallet observes: presence of a provider, the
connected chain id, whether a requested network switch succeeds, and the
signer address. -/
structure WalletEnv where
  hasEthereum : Bool
  chainId : Nat
  switchSucceeds : Bool
  signerAddress : Nat

/-- The contract handles held by ContractService: pool, BNB and USDC. -/
structure ServiceState where
  poolInitialized : Bool
  bnbInitialized : Bool
  usdcInitialized : Bool
  deriving DecidableEq, Repr

/-- The two error messages connectWallet can throw. -/
inductive ConnectError where
  | MetaMaskNotInstalled
  | SwitchToSepoliaFailed
  deriving DecidableEq, Repr

/-- Sepolia chain id checked by connectWallet. -/
def SEPOLIA_CHAIN_ID : Nat := 11155111

/-- ContractService.connectWallet of contractService.ts: fail when no
provider is installed; when the chain is not Sepolia request a switch and
fail when the switch fails; otherwise initialize the pool and both token
contract handles and return the signer address. -/
def connectWallet (env : WalletEnv) (st : ServiceState) :
    ServiceState × Except ConnectError Nat :=
  if !env.hasEthereum then (st, .error .MetaMaskNotInstalled)
  else if env.chainId ≠ SEPOLIA_CHAIN_ID then
    if !env.switchSucceeds then (st, .error .SwitchToSepoliaFailed)
    else ({ poolInitialized := true, bnbInitialized := true,
            usdcInitialized := true }, .ok env.signerAddress)
  else ({ poolInitialized := true, bnbInitialized := true,
          usdcInitialized := true }, .ok env.signerAddress)

/-- A concrete environment without a provider, used by witnesses. -/
def envNoProvider : WalletEnv :=
  { hasEthereum := false, chainId := 1, switchSucceeds := false, signerAddress := 5 }

/-- The fresh service state with no contract handles, used by witnesses. -/
def stEmpty : ServiceState :=
  { poolInitialized := false, bnbInitialized := false, usdcInitialized := false }

end Frontend

namespace LiquidtyPool

/-- Floor division is monotone along cross-multiplied inequalities. -/
theorem div_le_div_of_cross (a b c d : Nat) (hb : 0 < b) (hd : 0 < d)
    (h : a * d ≤ c * b) : a / b ≤ c / d := by
  rw [Nat.le_div_iff_mul_le hd]
  have h1 : a / b * b ≤ a := Nat.div_mul_le_self a b
  have h2 : a / b * d * b ≤ c * b := by
    calc a / b * d * b = a / b * b * d := by ring
      _ ≤ a * d := mul_le_mul_right' h1 d
      _ ≤ c * b := h
  exact Nat.le_of_mul_le_mul_right h2 hb

/-- Core arithmetic of the constant product: for a positive input
reserve the fee-floored output keeps the reserve product from
decreasing across the swap update. -/
theorem K_core (rIn rOut aIn : Nat) (hIn : 0 < rIn) :
    rIn * rOut ≤
      (rIn + aIn) * (rOut - rOut * (aIn * 997) / (rIn * 1000 + aIn * 997)) := by
  set f := aIn * 997 with hf
  set d := rIn * 1000 + f with hd
  have hdpos : 0 < d := by omega
  set out := rOut * f / d with hout
  have h1 : out * d ≤ rOut * f := Nat.div_mul_le_self _ _
  have h2 : (rIn + aIn) * f ≤ aIn * d := by
    rw [hf, hd, hf]
    nlinarith [hIn]
  have h3 : (rIn + aIn) * out ≤ rOut * aIn := by
    have hstep : (rIn + aIn) * out * d ≤ rOut * aIn * d := by
      calc (rIn + aIn) * out * d = (rIn + aIn) * (out * d) := by ring
        _ ≤ (rIn + aIn) * (rOut * f) := mul_le_mul_left' h1 _
        _ = rOut * ((rIn + aIn) * f) := by ring
        _ ≤ rOut * (aIn * d) := mul_le_mul_left' h2 _
        _ = rOut * aIn * d := by ring
    exact Nat.le_of_mul_le_mul_right hstep hdpos
  have h4 : out ≤ rOut := by
    have hfd : f ≤ d := by omega
    rw [hout]
    exact Nat.div_le_of_le_mul' (by rw [Nat.mul_comm rOut f]; exact mul_le_mul_right' hfd rOut)
  zify [h4]
  have h3i : ((rIn : ℤ) + aIn) * out ≤ rOut * aIn := by exact_mod_cast h3
  nlinarith [h3i]

/-- Core arithmetic: against positive reserves the floored output is
strictly below the output reserve. -/
theorem amountOut_lt_reserveOut_core (rIn rOut aIn : Nat)
    (hIn : 0 < rIn) (hOut : 0 < rOut) :
    rOut * (aIn * 997) / (rIn * 1000 + aIn * 997) < rOut := by
  have hdpos : 0 < rIn * 1000 + aIn * 997 := by omega
  rw [Nat.div_lt_iff_lt_mul hdpos]
  nlinarith [Nat.mul_pos hOut hIn]

/-- The floored output formula stays strictly below the output reserve. -/
theorem amountOutFormula_lt (p : Pool) (aIn : Nat) (t : Bool)
    (h1 : reserveIn p t ≠ 0) (h2 : reserveOut p t ≠ 0) :
    amountOutFormula p aIn t < reserveOut p t := by
  unfold amountOutFormula
  exact amountOut_lt_reserveOut_core (reserveIn p t) (reserveOut p t) aIn
    (Nat.pos_of_ne_zero h1) (Nat.pos_of_ne_zero h2)

/-- getAmountOut succeeds exactly on positive input against nonzero
reserves and then returns the fee-floored formula. -/
theorem getAmountOut_ok_iff (p : Pool) (aIn : Nat) (t : Bool) (out : Nat) :
    getAmountOut p aIn t = .ok out ↔
      aIn ≠ 0 ∧ reserveIn p t ≠ 0 ∧ reserveOut p t ≠ 0 ∧
        out = amountOutFormula p aIn t := by
  unfold getAmountOut
  split_ifs with h1 h2
  · simp [h1]
  · rcases h2 with h2 | h2 <;> simp [h2]
  · push_neg at h2
    simp [h1, h2.1, h2.2, eq_comm]

/-- getAmountOut only fails with the two quote errors of spec 4.3. -/
theorem getAmountOut_error_cases (p : Pool) (aIn : Nat) (t : Bool)
    (e : PoolError) (h : getAmountOut p aIn t = .error e) :
    e = .InsufficientInputAmount ∨ e = .InsufficientLiquidity := by
  unfold getAmountOut at h
  split_ifs at h <;> simp_all

/-- Shape of a successful swap: the output comes from getAmountOut, the
slippage and overflow guards passed, and the new state is applySwap. -/
theorem swap_ok_elim (p : Pool) (aIn : Nat) (t : Bool) (minOut : Nat)
    (r : Addr) (p' : Pool) (out : Nat)
    (h : swap p aIn t minOut r = .ok (p', out)) :
    getAmountOut p aIn t = .ok out ∧ minOut ≤ out ∧
      reserveIn p t + aIn ≤ MAX_RESERVE ∧ p' = applySwap p aIn out t := by
  unfold swap at h
  split at h
  · simp at h
  next amountOut heq =>
    split_ifs at h with hs ho hk
    simp only [Except.ok.injEq, Prod.mk.injEq] at h
    obtain ⟨hp, hout⟩ := h
    subst hout
    subst hp
    exact ⟨heq, by omega, by omega, rfl⟩

/-- The state update of a successful swap never decreases the reserve
product, by the arithmetic of K_core in both trade directions. -/
theorem applySwap_K (p : Pool) (amountIn out : Nat) (t : Bool)
    (hrin : reserveIn p t ≠ 0)
    (hform : out = amountOutFormula p amountIn t) :
    p.reserveA * p.reserveB ≤
      (applySwap p amountIn out t).reserveA * (applySwap p amountIn out t).reserveB := by
  cases t with
  | true =>
    have hApos : 0 < p.reserveA := Nat.pos_of_ne_zero (by simpa [reserveIn] using hrin)
    have hform' : out = p.reserveB * (amountIn * 997) /
        (p.reserveA * 1000 + amountIn * 997) := by
      simpa [amountOutFormula, reserveIn, reserveOut] using hform
    have hK := K_core p.reserveA p.reserveB amountIn hApos
    rw [← hform'] at hK
    have e1 : (applySwap p amountIn out true).reserveA = p.reserveA + amountIn := by
      simp [applySwap]
    have e2 : (applySwap p amountIn out true).reserveB = p.reserveB - out := by
      simp [applySwap]
    rw [e1, e2]
    exact hK
  | false =>
    have hBpos : 0 < p.reserveB := Nat.pos_of_ne_zero (by simpa [reserveIn] using hrin)
    have hform' : out = p.reserveA * (amountIn * 997) /
        (p.reserveB * 1000 + amountIn * 997) := by
      simpa [amountOutFormula, reserveIn, reserveOut] using hform
    have hK := K_core p.reserveB p.reserveA amountIn hBpos
    rw [← hform'] at hK
    have e1 : (applySwap p amountIn out false).reserveA = p.reserveA - out := by
      simp [applySwap]
    have e2 : (applySwap p amountIn out false).reserveB = p.reserveB + amountIn := by
      simp [applySwap]
    rw [e1, e2]
    calc p.reserveA * p.reserveB = p.reserveB * p.reserveA := Nat.mul_comm _ _
      _ ≤ (p.reserveB + amountIn) * (p.reserveA - out) := hK
      _ = (p.reserveA - out) * (p.reserveB + amountIn) := Nat.mul_comm _ _

/-- The defense-in-depth K recheck of spec 4.4 is unreachable: swap
never fails with InvariantViolation. -/
theorem swap_never_invariantViolation (p : Pool) (amountIn : Nat) (t : Bool)
    (minOut : Nat) (r : Addr) :
    swap p amountIn t minOut r ≠ .error .InvariantViolation := by
  intro h
  unfold swap at h
  split at h
  next e heq =>
    simp only [Except.error.injEq] at h
    subst h
    rcases getAmountOut_error_cases p amountIn t _ heq with h1 | h1 <;>
      exact PoolError.noConfusion h1
  next amountOut heq =>
    rw [getAmountOut_ok_iff] at heq
    have hK := applySwap_K p amountIn amountOut t heq.2.1 heq.2.2.2
    split_ifs at h with hs ho hk
    all_goals first
      | exact absurd hk (Nat.not_lt.mpr hK)
      | simp at h

/-- C1: for every swap executed against a pool with non-zero reserves,
the product of the two reserves after the swap is greater than or equal
to the product before the swap: K never decreases across a swap. -/
theorem swap_K_monotone (p : Pool) (amountIn minAmountOut : Nat) (t : Bool)
    (r : Addr) (p' : Pool) (out : Nat)
    (hA : p.reserveA ≠ 0) (hB : p.reserveB ≠ 0)
    (h : swap p amountIn t minAmountOut r = .ok (p', out)) :
    p.reserveA * p.reserveB ≤ p'.reserveA * p'.reserveB := by
  obtain ⟨hq, hmin, hov, hp⟩ := swap_ok_elim p amountIn t minAmountOut r p' out h
  rw [getAmountOut_ok_iff] at hq
  subst hp
  exact applySwap_K p amountIn out t hq.2.1 hq.2.2.2

/-- C1 witness: a concrete swap of 10 in against the (100, 100) pool
yields output 9 and the reserve product grows from 10000 to 10010. -/
theorem swap_K_monotone_witness :
    pool100.reserveA * pool100.reserveB ≤ (110 : Nat) * 91 :=
  swap_K_monotone pool100 10 0 true 1
    { reserveA := 110, reserveB := 91, totalShares := 100, balances := fun _ => 0 } 9
    (by decide) (by decide) rfl

/-- C2: with positive input and both reserves nonzero, getAmountOut
returns the floored fee-adjusted formula, and a successful swap pays out
exactly that amount while growing the input reserve by amountIn and
shrinking the output reserve by exactly amountOut. -/
theorem getAmountOut_swap_correct (p : Pool) (amountIn minAmountOut : Nat)
    (t : Bool) (r : Addr)
    (hIn : 0 < amountIn) (h1 : reserveIn p t ≠ 0) (h2 : reserveOut p t ≠ 0) :
    getAmountOut p amountIn t =
      .ok (reserveOut p t * (amountIn * 997) /
        (reserveIn p t * 1000 + amountIn * 997)) ∧
    ∀ p' out, swap p amountIn t minAmountOut r = .ok (p', out) →
      out = reserveOut p t * (amountIn * 997) /
        (reserveIn p t * 1000 + amountIn * 997) ∧
      reserveIn p' t = reserveIn p t + amountIn ∧
      reserveOut p' t + out = reserveOut p t := by
  constructor
  · rw [getAmountOut_ok_iff]
    exact ⟨Nat.pos_iff_ne_zero.mp hIn, h1, h2, rfl⟩
  · intro p' out h
    obtain ⟨hq, hmin, hov, hp⟩ := swap_ok_elim p amountIn t minAmountOut r p' out h
    rw [getAmountOut_ok_iff] at hq
    obtain ⟨-, -, -, hform⟩ := hq
    have hlt : out < reserveOut p t := by
      rw [hform]
      exact amountOutFormula_lt p amountIn t h1 h2
    subst hp
    refine ⟨hform, ?_, ?_⟩
    · cases t <;> simp [applySwap, reserveIn]
    · cases t <;> simp [applySwap, reserveOut] at hlt ⊢ <;> omega

/-- C2 witness: against the (100, 100) pool an input of 10 quotes
9970 div 1099, which floors to 9. -/
theorem getAmountOut_swap_correct_witness :
    getAmountOut pool100 10 true = .ok 9 :=
  (getAmountOut_swap_correct pool100 10 0 true 1 (by decide) (by decide) (by decide)).1

/-- C4: when the computed output falls short of the caller-supplied
minAmountOut, swap fails with InsufficientOutputAmount.  The result is
an error carrying no successor state, so the reserves and every share
balance are exactly those of the pool before the call. -/
theorem swap_slippage_guard (p : Pool) (amountIn minAmountOut out : Nat)
    (t : Bool) (r : Addr)
    (hq : getAmountOut p amountIn t = .ok out) (hlt : out < minAmountOut) :
    swap p amountIn t minAmountOut r = .error .InsufficientOutputAmount := by
  unfold swap
  rw [hq]
  simp [hlt]

/-- C4 witness: asking for one unit more than the true output 9 makes
the concrete swap fail with InsufficientOutputAmount. -/
theorem swap_slippage_guard_witness :
    swap pool100 10 true 10 1 = .error .InsufficientOutputAmount :=
  swap_slippage_guard pool100 10 10 9 true 1 rfl (by decide)

/-- C7 counterexample: on the pool with both reserves 1 the quotes at
inputs 1 and 2 are both 0, so getAmountOut is not strictly increasing
in amountIn for pools with non-zero reserves. -/
theorem getAmountOut_not_strictly_increasing :
    ¬ (∀ (x y o1 o2 : Nat), 0 < x → x < y →
        getAmountOut poolOneOne x true = .ok o1 →
        getAmountOut poolOneOne y true = .ok o2 → o1 < o2) := by
  intro hcl
  have h1 : getAmountOut poolOneOne 1 true = .ok 0 := rfl
  have h2 : getAmountOut poolOneOne 2 true = .ok 0 := rfl
  exact absurd (hcl 1 2 0 0 (by decide) (by decide) h1 h2) (by decide)

/-- C7 amended: against nonzero reserves getAmountOut is monotone
non-decreasing in amountIn (floor rounding defeats strictness: distinct
inputs may quote equal outputs) and its result stays strictly below the
opposing reserve for every finite positive input. -/
theorem getAmountOut_monotone_and_bounded (p : Pool) (x y o1 o2 : Nat)
    (t : Bool) (hx : 0 < x) (hxy : x ≤ y)
    (h1 : getAmountOut p x t = .ok o1) (h2 : getAmountOut p y t = .ok o2) :
    o1 ≤ o2 ∧ o1 < reserveOut p t := by
  rw [getAmountOut_ok_iff] at h1 h2
  obtain ⟨hx0, hrin, hrout, hf1⟩ := h1
  obtain ⟨hy0, -, -, hf2⟩ := h2
  subst hf1
  subst hf2
  constructor
  · unfold amountOutFormula
    apply div_le_div_of_cross
    · have := Nat.pos_of_ne_zero hrin
      omega
    · have := Nat.pos_of_ne_zero hrin
      omega
    · nlinarith [mul_le_mul_left' hxy (reserveOut p t * 997 * (reserveIn p t * 1000))]
  · exact amountOutFormula_lt p x t hrin hrout

/-- C7 amended witness: on the (100, 100) pool the quotes at 1 and 10
are 0 and 9, ordered and both below the opposing reserve. -/
theorem getAmountOut_monotone_and_bounded_witness :
    (0 : Nat) ≤ 9 ∧ (0 : Nat) < reserveOut pool100 true :=
  getAmountOut_monotone_and_bounded pool100 1 10 0 9 true
    (by decide) (by decide) rfl rfl

/-- C3: on an empty pool the first deposit issues the geometric mean of
the amounts minus the 1000-share lock to the recipient, credits exactly
the 1000 locked shares to the sink account, and fails with
InsufficientLiquidityMinted whenever the computed issuance would be at
most zero. -/
theorem mint_first_deposit (p : Pool) (amountA amountB : Nat) (recipient : Addr)
    (h0 : p.totalShares = 0) (hr : recipient ≠ SINK) :
    (Nat.sqrt (amountA * amountB) ≤ MINIMUM_LIQUIDITY →
      mint p amountA amountB recipient = .error .InsufficientLiquidityMinted) ∧
    ∀ p' s, mint p amountA amountB recipient = .ok (p', s) →
      s = Nat.sqrt (amountA * amountB) - MINIMUM_LIQUIDITY ∧
      p'.balances recipient = p.balances recipient + s ∧
      p'.balances SINK = p.balances SINK + MINIMUM_LIQUIDITY := by
  have hsv : mintSharesIssued p amountA amountB =
      Nat.sqrt (amountA * amountB) - MINIMUM_LIQUIDITY := by
    unfold mintSharesIssued
    rw [if_pos h0]
  constructor
  · intro hle
    unfold mint
    rw [if_pos (by omega : mintSharesIssued p amountA amountB = 0)]
  · intro p' s h
    unfold mint at h
    split_ifs at h with h1 h2
    simp only [Except.ok.injEq, Prod.mk.injEq] at h
    obtain ⟨hp, hs⟩ := h
    subst hp
    refine ⟨by rw [← hs, hsv], ?_, ?_⟩
    · simp [credit, hr, hs]
    · simp [credit, Ne.symm hr]

/-- C3 witness: minting (1, 1) on the empty pool computes issuance
sqrt 1 - 1000 = 0 and fails with InsufficientLiquidityMinted. -/
theorem mint_first_deposit_witness :
    mint pool0 1 1 1 = .error .InsufficientLiquidityMinted :=
  (mint_first_deposit pool0 1 1 1 rfl (by decide)).1 (by decide)

/-- C5: on an already-seeded pool the issued shares equal the minimum of
the two proportional contributions, and mint fails with
InsufficientLiquidityMinted when that minimum is zero. -/
theorem mint_subsequent (p : Pool) (amountA amountB : Nat) (recipient : Addr)
    (h0 : p.totalShares ≠ 0) :
    (min (amountA * p.totalShares / p.reserveA)
        (amountB * p.totalShares / p.reserveB) = 0 →
      mint p amountA amountB recipient = .error .InsufficientLiquidityMinted) ∧
    ∀ p' s, mint p amountA amountB recipient = .ok (p', s) →
      s = min (amountA * p.totalShares / p.reserveA)
        (amountB * p.totalShares / p.reserveB) ∧
      p'.balances recipient = p.balances recipient + s ∧
      p'.totalShares = p.totalShares + s := by
  have hsv : mintSharesIssued p amountA amountB =
      min (amountA * p.totalShares / p.reserveA)
        (amountB * p.totalShares / p.reserveB) := by
    unfold mintSharesIssued
    rw [if_neg h0]
  constructor
  · intro hz
    unfold mint
    rw [if_pos (by omega : mintSharesIssued p amountA amountB = 0)]
  · intro p' s h
    unfold mint at h
    split_ifs at h with h1 h2
    simp only [Except.ok.injEq, Prod.mk.injEq] at h
    obtain ⟨hp, hs⟩ := h
    subst hp
    exact ⟨by rw [← hs, hsv], by simp [credit, hs], by simp [hs]⟩

/-- C5 witness: adding (0, 5) to the seeded (100, 100) pool computes a
zero proportional minimum and fails with InsufficientLiquidityMinted. -/
theorem mint_subsequent_witness :
    mint pool100 0 5 1 = .error .InsufficientLiquidityMinted :=
  (mint_subsequent pool100 0 5 1 (by decide)).1 (by decide)

/-- C6: burn pays out the floored proportional amounts of both
reserves, fails with InsufficientLiquidityBurned when either amount is
zero, and on success debits the shares from the caller and from
totalShares and decrements both reserves by exactly the paid amounts. -/
theorem burn_correct (p : Pool) (caller : Addr) (shares : Nat) (recipient : Addr)
    (hbal : shares ≤ p.balances caller) (hT : shares ≤ p.totalShares) :
    (shares * p.reserveA / p.totalShares = 0 ∨
        shares * p.reserveB / p.totalShares = 0 →
      burn p caller shares recipient = .error .InsufficientLiquidityBurned) ∧
    ∀ p' aA aB, burn p caller shares recipient = .ok (p', aA, aB) →
      aA = shares * p.reserveA / p.totalShares ∧
      aB = shares * p.reserveB / p.totalShares ∧
      p'.balances caller + shares = p.balances caller ∧
      p'.totalShares + shares = p.totalShares ∧
      p'.reserveA + aA = p.reserveA ∧
      p'.reserveB + aB = p.reserveB := by
  constructor
  · intro hz
    unfold burn
    rw [if_pos hz]
  · intro p' aA aB h
    unfold burn at h
    split_ifs at h with hz
    push_neg at hz
    simp only [Except.ok.injEq, Prod.mk.injEq] at h
    obtain ⟨hp, hA, hB⟩ := h
    subst hp
    subst hA
    subst hB
    have hTpos : 0 < p.totalShares := by
      rcases Nat.eq_zero_or_pos p.totalShares with hzero | hpos
      · rw [hzero] at hz
        simp at hz
      · exact hpos
    have haA : shares * p.reserveA / p.totalShares ≤ p.reserveA :=
      Nat.div_le_of_le_mul' (mul_le_mul_right' hT _)
    have haB : shares * p.reserveB / p.totalShares ≤ p.reserveB :=
      Nat.div_le_of_le_mul' (mul_le_mul_right' hT _)
    refine ⟨rfl, rfl, ?_, by simp; omega, by simp; omega, by simp; omega⟩
    simp [debit]
    omega

/-- C6 witness: burning 0 shares from the seeded (100, 100) pool
computes zero payouts and fails with InsufficientLiquidityBurned. -/
theorem burn_correct_witness :
    burn pool100 1 0 2 = .error .InsufficientLiquidityBurned :=
  (burn_correct pool100 1 0 2 (by decide) (by decide)).1 (by decide)

/-- C8: every successful mint, swap or burn leaves both reserves within
the fixed maximum magnitude 2 ^ 112 - 1, a mint whose reserve increment
would exceed the bound fails with ReserveOverflow (whenever the share
issuance guard, which is checked first, passes), and a swap whose input
reserve increment would exceed the bound fails likewise; a failed
operation returns an error and no successor state. -/
theorem reserves_bounded (p : Pool) :
    (∀ amountA amountB r p' s, mint p amountA amountB r = .ok (p', s) →
      p'.reserveA ≤ MAX_RESERVE ∧ p'.reserveB ≤ MAX_RESERVE) ∧
    (∀ amountIn t minOut r p' out,
      p.reserveA ≤ MAX_RESERVE → p.reserveB ≤ MAX_RESERVE →
      swap p amountIn t minOut r = .ok (p', out) →
      p'.reserveA ≤ MAX_RESERVE ∧ p'.reserveB ≤ MAX_RESERVE) ∧
    (∀ caller shares r p' aA aB,
      p.reserveA ≤ MAX_RESERVE → p.reserveB ≤ MAX_RESERVE →
      burn p caller shares r = .ok (p', aA, aB) →
      p'.reserveA ≤ MAX_RESERVE ∧ p'.reserveB ≤ MAX_RESERVE) ∧
    (∀ amountA amountB r, mintSharesIssued p amountA amountB ≠ 0 →
      MAX_RESERVE < p.reserveA + amountA ∨ MAX_RESERVE < p.reserveB + amountB →
      mint p amountA amountB r = .error .ReserveOverflow) ∧
    (∀ amountIn t minOut r out,
      getAmountOut p amountIn t = .ok out → minOut ≤ out →
      MAX_RESERVE < reserveIn p t + amountIn →
      swap p amountIn t minOut r = .error .ReserveOverflow) := by
  refine ⟨?_, ?_, ?_, ?_, ?_⟩
  · intro amountA amountB r p' s h
    unfold mint at h
    split_ifs at h with h1 h2 h3 <;>
      · push_neg at h2
        simp only [Except.ok.injEq, Prod.mk.injEq] at h
        obtain ⟨hp, -⟩ := h
        subst hp
        exact ⟨by simp; omega, by simp; omega⟩
  · intro amountIn t minOut r p' out hA hB h
    obtain ⟨hq, -, hov, hp⟩ := swap_ok_elim p amountIn t minOut r p' out h
    subst hp
    cases t <;> simp [reserveIn] at hov <;> constructor <;> simp [applySwap] <;> omega
  · intro caller shares r p' aA aB hA hB h
    unfold burn at h
    split_ifs at h with hz
    simp only [Except.ok.injEq, Prod.mk.injEq] at h
    obtain ⟨hp, -, -⟩ := h
    subst hp
    exact ⟨le_trans (Nat.sub_le _ _) hA, le_trans (Nat.sub_le _ _) hB⟩
  · intro amountA amountB r hne hov
    unfold mint
    rw [if_neg hne, if_pos hov]
  · intro amountIn t minOut r out hq hmin hov
    unfold swap
    rw [hq]
    simp [Nat.not_lt.mpr hmin, hov]

/-- C8 witness: depositing (10, 10) into the seeded (100, 100) pool
succeeds and leaves both reserves far below 2 ^ 112 - 1. -/
theorem reserves_bounded_witness :
    poolSub.reserveA ≤ MAX_RESERVE ∧ poolSub.reserveB ≤ MAX_RESERVE :=
  (reserves_bounded pool100).1 10 10 1 poolSub 10 rfl

end LiquidtyPool

namespace Frontend

/-- Lossless roundtrip of the 18-decimal rendering: parsing a rendered
wei amount recovers it exactly, so a displayed quote loses nothing. -/
theorem parseEther_formatEther (wei : Nat) : parseEther (formatEther wei) = wei := by
  unfold parseEther formatEther
  rw [Nat.mul_comm]
  exact Nat.div_add_mod wei (10 ^ 18)

/-- C9: a swap submitted through the frontend pay-side flow sends as
minAmountOut exactly the previously quoted getAmountOut result that was
displayed as the receive amount (token2Amount parsed at 18 decimals), so
a UI-initiated swap tolerates zero slippage: it can only succeed when
the executed output is at least the earlier quote. -/
theorem handleSwap_zero_slippage (pQuote pExec : LiquidtyPool.Pool)
    (token1Amount : Nat × Nat) (t : Bool) (user : LiquidtyPool.Addr)
    (quoteWei : Nat)
    (hq : LiquidtyPool.getAmountOut pQuote (parseEther token1Amount) t = .ok quoteWei) :
    handleSwap pQuote pExec token1Amount t user =
      LiquidtyPool.swap pExec (parseEther token1Amount) t quoteWei user ∧
    ∀ p' out, handleSwap pQuote pExec token1Amount t user = .ok (p', out) →
      quoteWei ≤ out := by
  have hmain : handleSwap pQuote pExec token1Amount t user =
      LiquidtyPool.swap pExec (parseEther token1Amount) t quoteWei user := by
    unfold handleSwap calculatePrice ContractService.getAmountOut
    rw [hq]
    simp [ContractService.swap, parseEther_formatEther]
  refine ⟨hmain, ?_⟩
  intro p' out h
  rw [hmain] at h
  obtain ⟨-, hmin, -, -⟩ :=
    LiquidtyPool.swap_ok_elim pExec (parseEther token1Amount) t quoteWei user p' out h
  exact hmin

/-- C9 witness: quoting 10 wei against the (100, 100) pool displays 9
and the submitted swap carries exactly 9 as minAmountOut. -/
theorem handleSwap_zero_slippage_witness :
    handleSwap LiquidtyPool.pool100 LiquidtyPool.pool100 (0, 10) true 1 =
      LiquidtyPool.swap LiquidtyPool.pool100 10 true 9 1 :=
  (handleSwap_zero_slippage LiquidtyPool.pool100 LiquidtyPool.pool100
    (0, 10) true 1 9 rfl).1

/-- C10: connectWallet fails with the MetaMask-not-installed error when
no provider exists; when the chain is not Sepolia (11155111) and the
requested switch fails it fails with the switch-to-Sepolia error, in
both cases leaving the contract handles untouched; only once these
checks pass does it initialize the pool and both token handles and
return the signer address. -/
theorem connectWallet_correct (env : WalletEnv) (st : ServiceState) :
    (env.hasEthereum = false →
      connectWallet env st = (st, .error .MetaMaskNotInstalled)) ∧
    (env.hasEthereum = true → env.chainId ≠ SEPOLIA_CHAIN_ID →
      env.switchSucceeds = false →
      connectWallet env st = (st, .error .SwitchToSepoliaFailed)) ∧
    (env.hasEthereum = true →
      (env.chainId = SEPOLIA_CHAIN_ID ∨ env.switchSucceeds = true) →
      connectWallet env st =
        ({ poolInitialized := true, bnbInitialized := true,
           usdcInitialized := true }, .ok env.signerAddress)) := by
  refine ⟨?_, ?_, ?_⟩
  · intro h
    simp [connectWallet, h]
  · intro h1 h2 h3
    simp [connectWallet, h1, h2, h3]
  · intro h1 h2
    rcases h2 with h2 | h2
    · simp [connectWallet, h1, h2]
    · by_cases hc : env.chainId = SEPOLIA_CHAIN_ID
      · simp [connectWallet, h1, hc]
      · simp [connectWallet, h1, hc, h2]

/-- C10 witness: with no provider installed connectWallet fails with the
MetaMask-not-installed error and leaves the handles uninitialized. -/
theorem connectWallet_correct_witness :
    connectWallet envNoProvider stEmpty =
      (stEmpty, .error .MetaMaskNotInstalled) :=
  (connectWallet_correct envNoProvider stEmpty).1 rfl

end Frontend
